import Mathlib

/-!
# Rolling cosine similarity over time series data — verification development

Shallow embedding of the notebook `Rolling Cosine Similarity-checkpoint.ipynb`
(repository `issaoreilly/data_science_solutions`).

Modelling choices:
* A NumPy ndarray is a `shape` (list of dimension sizes, C order) together with
  the flat `data` buffer.  Element values are idealized as rationals `ℚ`
  (double-precision rounding is not modelled; the spec's floating tolerances
  become exact equalities).
* Every finite value produced by the similarity pipeline has the form
  `q * Real.sqrt r` with `q r : ℚ` (the only irrationality enters through
  `np.sqrt` applied to a rational sum of squares).  Such values are represented
  by the computable pair `QSqrt`, with denotation `QSqrt.toReal`.
* IEEE-754 special values produced by division are modelled by `FVal`:
  `x / 0 = nan` when `x = 0`, signed infinity when `x ≠ 0` (NumPy does not
  raise on true_divide by zero; it emits these values).  In this program the
  divisor is always a product of Euclidean norms, hence nonnegative, so `ℝ`'s
  lack of a signed zero is faithful here.
* Python/NumPy exceptions (ValueError of `sliding_window_view`, IndexError of
  `shape[1]` on a 1-d array, iteration over a 0-d array) are modelled with
  `Except String`.
-/

/-- Representation of `q * Real.sqrt r` for rationals `q`, `r`.  All finite
values flowing through the similarity computation have this form. -/
structure QSqrt where
  q : ℚ
  r : ℚ
deriving DecidableEq

/-- Product of two `QSqrt` values: `(q₁√r₁) * (q₂√r₂) = (q₁q₂)√(r₁r₂)`
(faithful to real multiplication whenever the radicands are nonnegative,
which holds throughout the pipeline: radicands are sums of squares). -/
def QSqrt.mul (x y : QSqrt) : QSqrt := ⟨x.q * y.q, x.r * y.r⟩

/-- `np.sqrt` applied to a (nonnegative) rational: the value `1 * √r`. -/
def sqrtQ (r : ℚ) : QSqrt := ⟨1, r⟩

/-- A plain rational viewed as a `QSqrt` value (`q = q√1`). -/
def QSqrt.ofRat (q : ℚ) : QSqrt := ⟨q, 1⟩

/-- Denotation of a `QSqrt` value as a real number. -/
noncomputable def QSqrt.toReal (x : QSqrt) : ℝ := (x.q : ℝ) * Real.sqrt (x.r : ℝ)

/-- A double-precision value as it appears in an output matrix: either a finite
value (of the `q√r` shape), a signed infinity, or not-a-number. -/
inductive FVal where
  | fin : QSqrt → FVal
  | inf : Bool → FVal
  | nan : FVal
deriving DecidableEq

/-- IEEE division of a rational numerator by a `QSqrt` denominator, as NumPy's
`true_divide` behaves on the similarity pipeline: the denominator `q√r` (with
`r ≥ 0` a product of sums of squares) is zero exactly when `q = 0` or `r = 0`;
`0 / 0` is nan, `x / 0` with `x ≠ 0` is a signed infinity, and otherwise
`a / (q√r) = (a / (q * r)) √r`. -/
def fdiv (a : ℚ) (b : QSqrt) : FVal :=
  if b.q = 0 ∨ b.r = 0 then
    if a = 0 then FVal.nan else FVal.inf (decide (0 < a))
  else FVal.fin ⟨a / (b.q * b.r), b.r⟩

/-- A NumPy ndarray: list of dimension sizes plus the flat (C-order) buffer. -/
structure NDArray where
  shape : List ℕ
  data : List ℚ
deriving DecidableEq

/-- Element `a[i, j]` of a 2-d array (row-major indexing). -/
def NDArray.get2 (a : NDArray) (i j : ℕ) : ℚ :=
  a.data.getD (i * a.shape.getD 1 0 + j) 0

/-- Column `a[:, j]` of a 2-d array. -/
def NDArray.col (a : NDArray) (j : ℕ) : List ℚ :=
  (List.range (a.shape.getD 0 0)).map (fun k => a.get2 k j)

/-- A similarity matrix: a `C × C` matrix of double-precision values,
kept as a list of rows. -/
abbrev SimMatrix := List (List FVal)

/-- Source: `calc_norm(v) = np.sqrt(np.sum(np.square(v)))` (`@njit` helper). -/
def calc_norm (v : List ℚ) : QSqrt :=
  sqrtQ ((v.map (fun x => x * x)).sum)

/-- Source: `calc_cosine_similarity_on_2darray(arr)` — the NumPy
implementation.  `arr.T @ arr` divided element-wise by the norm matrix built
with `np.linalg.norm(arr, axis=0)`, `np.expand_dims` and `np.tile`.
On a non-2-d input Python raises IndexError (the `arr_norm_r.shape[1]`
lookup inside the `np.tile` call fails, since `np.linalg.norm(arr, axis=0)`
of a 1-d array is a scalar and `arr_norm_r` then has shape `(1,)`). -/
def calc_cosine_similarity_on_2darray (arr : NDArray) : Except String SimMatrix :=
  match arr.shape with
  | [m, C] =>
    -- Equation 1: `arr_x_arr = arr.T @ arr`, entries `Σ_k arr[k, i] * arr[k, j]`
    let arr_x_arr : List (List ℚ) :=
      (List.range C).map (fun i => (List.range C).map (fun j =>
        ((List.range m).map (fun k => arr.get2 k i * arr.get2 k j)).sum))
    -- `arr_norm = np.linalg.norm(arr, axis=0)`: per-column Euclidean norms
    let arr_norm : List QSqrt :=
      (List.range C).map (fun j => sqrtQ (((arr.col j).map (fun x => x ^ 2)).sum))
    -- `arr_norm_r = np.expand_dims(arr_norm, axis=0)`: shape (1, C)
    let arr_norm_r : List (List QSqrt) := [arr_norm]
    -- `arr_norm_r_m = np.tile(arr_norm_r, (arr_norm_r.shape[1], 1))`: C rows
    let arr_norm_r_m : List (List QSqrt) :=
      (List.range C).map (fun _ => arr_norm_r.getD 0 [])
    -- `arr_norm_c_m = arr_norm_r_m.T`
    let arr_norm_c_m : List (List QSqrt) :=
      (List.range C).map (fun i => (List.range C).map (fun j =>
        (arr_norm_r_m.getD j []).getD i (sqrtQ 0)))
    -- `arr_norm_mul = arr_norm_r_m * arr_norm_c_m` (element-wise)
    let arr_norm_mul : List (List QSqrt) :=
      List.zipWith (List.zipWith QSqrt.mul) arr_norm_r_m arr_norm_c_m
    -- `return arr_x_arr / arr_norm_mul` (element-wise)
    .ok (List.zipWith (List.zipWith fdiv) arr_x_arr arr_norm_mul)
  | _ => .error "IndexError: tuple index out of range"

/-- Source: `calc_cosine_similarity_on_2darray_numba(arr)` — the Numba-oriented
variant: the per-column norm row is built by an explicit loop over `calc_norm`
into a `(1, C)` buffer, replicated by `np.ones((C, C)) * arr_norm_r`
(broadcasting) instead of `np.tile`.  On a non-2-d input the
`arr.shape[1]` lookup raises (IndexError in Python, a typing error under
`@njit`). -/
def calc_cosine_similarity_on_2darray_numba (arr : NDArray) : Except String SimMatrix :=
  match arr.shape with
  | [m, C] =>
    -- Equation 1: `arr_x_arr = arr.T @ arr`
    let arr_x_arr : List (List ℚ) :=
      (List.range C).map (fun i => (List.range C).map (fun j =>
        ((List.range m).map (fun k => arr.get2 k i * arr.get2 k j)).sum))
    -- `arr_norm_r[0, i] = calc_norm(arr[:, i])` for each column i
    let arr_norm_r : List QSqrt :=
      (List.range C).map (fun i => calc_norm (arr.col i))
    -- `arr_norm_r_m = np.ones(shape=(C, C)) * arr_norm_r` (row broadcast)
    let arr_norm_r_m : List (List QSqrt) :=
      (List.range C).map (fun _ =>
        List.zipWith (fun o x => QSqrt.mul (QSqrt.ofRat o) x)
          (List.replicate C (1 : ℚ)) arr_norm_r)
    -- `arr_norm_c_m = arr_norm_r_m.T`
    let arr_norm_c_m : List (List QSqrt) :=
      (List.range C).map (fun i => (List.range C).map (fun j =>
        (arr_norm_r_m.getD j []).getD i (sqrtQ 0)))
    -- `arr_norm_mul = arr_norm_r_m * arr_norm_c_m` (element-wise)
    let arr_norm_mul : List (List QSqrt) :=
      List.zipWith (List.zipWith QSqrt.mul) arr_norm_r_m arr_norm_c_m
    -- `return arr_x_arr / arr_norm_mul` (element-wise)
    .ok (List.zipWith (List.zipWith fdiv) arr_x_arr arr_norm_mul)
  | _ => .error "IndexError: tuple index out of range"

/-- `np.lib.stride_tricks.sliding_window_view(x, window_shape=(window_size,
num_features))` on a 2-d array `x` of shape `(T, C)`.  NumPy raises ValueError
when the window shape contains a negative entry or exceeds the array shape;
otherwise the result has shape `(T - w + 1, C - nf + 1, w, nf)` with
`view[s, c, r, k] = x[s + r, c + k]`. -/
def sliding_window_view (x : NDArray) (window_size : ℤ) (num_features : ℕ) :
    Except String NDArray :=
  if window_size < 0 then .error "window_shape cannot contain negative values"
  else
    let w := window_size.toNat
    let T := x.shape.getD 0 0
    let C := x.shape.getD 1 0
    if T < w then .error "window shape cannot be larger than input array shape"
    else if C < num_features then
      .error "window shape cannot be larger than input array shape"
    else .ok ⟨[T - w + 1, C - num_features + 1, w, num_features],
      (List.range (T - w + 1)).flatMap (fun s =>
        (List.range (C - num_features + 1)).flatMap (fun c =>
          (List.range w).flatMap (fun r =>
            (List.range num_features).map (fun k => x.get2 (s + r) (c + k)))))⟩

/-- `np.squeeze(a)`: removes every axis of size 1 (the flat buffer is
unchanged). -/
def np_squeeze (a : NDArray) : NDArray :=
  ⟨a.shape.filter (fun d => d != 1), a.data⟩

/-- Iteration over the first axis of an ndarray (`for arr in array_windowed`):
yields the sub-arrays along axis 0; iterating a 0-d array raises TypeError. -/
def NDArray.items (a : NDArray) : Except String (List NDArray) :=
  match a.shape with
  | [] => .error "iteration over a 0-d array"
  | n :: rest =>
    .ok ((List.range n).map (fun i => ⟨rest, (a.data.drop (i * rest.prod)).take rest.prod⟩))

/-- Multi-index (C order) of flat position `t` in an array of shape `s`. -/
def unflatten : List ℕ → ℕ → List ℕ
  | [], _ => []
  | _ :: ss, t => (t / ss.prod) :: unflatten ss (t % ss.prod)

/-- Flat position (C order) of a multi-index in an array of shape `s`. -/
def flattenIdx : List ℕ → List ℕ → ℕ
  | [], _ => 0
  | _, [] => 0
  | _ :: ss, i :: ix => i * ss.prod + flattenIdx ss ix

/-- `a.T`: reverses the axes (the identity on 0-d and 1-d arrays). -/
def NDArray.T (a : NDArray) : NDArray :=
  ⟨a.shape.reverse,
    (List.range a.shape.prod).map (fun t =>
      a.data.getD (flattenIdx a.shape ((unflatten a.shape.reverse t).reverse)) 0)⟩

/-- Source: `rolling_cosine_similarity_numba(array_windowed)` — applies the
Numba per-window function to every item of the windowed array. -/
def rolling_cosine_similarity_numba (array_windowed : NDArray) :
    Except String (List SimMatrix) :=
  match array_windowed.items with
  | .error e => .error e
  | .ok ws => ws.mapM calc_cosine_similarity_on_2darray_numba

/-- Source: `calc_rolling_cosine_similarity_numba(arr, window_size,
num_features)` — windows `arr` with `sliding_window_view`, squeezes, and maps
the Numba per-window function. -/
def calc_rolling_cosine_similarity_numba (arr : NDArray) (window_size : ℤ)
    (num_features : ℕ) : Except String (List SimMatrix) :=
  match sliding_window_view arr window_size num_features with
  | .error e => .error e
  | .ok v => rolling_cosine_similarity_numba (np_squeeze v)

/-- Source: `calc_rolling_cosine_similarity_v1(array, window_size,
num_features)`.  The body windows the module-level global `array_2D` (passed
here explicitly as `array_2D`), not the `array` parameter, and applies
sklearn's `cosine_similarity` (an external library function, passed here as
the parameter `cosine_similarity`) to the transpose of each window. -/
def calc_rolling_cosine_similarity_v1 (cosine_similarity : NDArray → SimMatrix)
    (array_2D : NDArray) (array : NDArray) (window_size : ℤ)
    (num_features : ℕ) : Except String (List SimMatrix) :=
  match sliding_window_view array_2D window_size num_features with
  | .error e => .error e
  | .ok v =>
    match (np_squeeze v).items with
    | .error e => .error e
    | .ok ws => .ok (ws.map (fun arr => cosine_similarity arr.T))

/-- Source: `calc_rolling_cosine_similarity_v2(array, window_size,
num_features)`.  The body windows the module-level global `array_2D`, not the
`array` parameter, and applies `calc_cosine_similarity_on_2darray` to each
window. -/
def calc_rolling_cosine_similarity_v2 (array_2D : NDArray) (array : NDArray)
    (window_size : ℤ) (num_features : ℕ) : Except String (List SimMatrix) :=
  match sliding_window_view array_2D window_size num_features with
  | .error e => .error e
  | .ok v =>
    match (np_squeeze v).items with
    | .error e => .error e
    | .ok ws => ws.mapM calc_cosine_similarity_on_2darray

/-- The dot product of columns `i` and `j` of a 2-d array, restricted to the
array (spec language: `G[i][j]`). -/
def colDotQ (a : NDArray) (i j : ℕ) : ℚ :=
  ((List.range (a.shape.getD 0 0)).map (fun k => a.get2 k i * a.get2 k j)).sum

/-- The squared Euclidean norm of column `j` of a 2-d array. -/
def colNormSq (a : NDArray) (j : ℕ) : ℚ :=
  ((a.col j).map (fun x => x ^ 2)).sum

/-- The Euclidean norm of column `j` of a 2-d array, as a real number. -/
noncomputable def colNorm (a : NDArray) (j : ℕ) : ℝ :=
  Real.sqrt ((colNormSq a j : ℚ) : ℝ)

/-- Normal form of the entry `(i, j)` computed by both per-window functions:
`G[i][j] / (‖col j‖ * ‖col i‖)` as an IEEE division. -/
def cosEntry (a : NDArray) (i j : ℕ) : FVal :=
  fdiv (colDotQ a i j) (QSqrt.mul (sqrtQ (colNormSq a j)) (sqrtQ (colNormSq a i)))

/-- Normal form of the whole `C × C` similarity matrix. -/
def cosMatrix (a : NDArray) : SimMatrix :=
  (List.range (a.shape.getD 1 0)).map (fun i =>
    (List.range (a.shape.getD 1 0)).map (fun j => cosEntry a i j))

/-! ## General list lemmas -/

theorem getD_range_map {α : Type _} (f : ℕ → α) (d : α) {n i : ℕ} (h : i < n) :
    ((List.range n).map f).getD i d = f i := by
  rw [List.getD_eq_getElem?_getD, List.getElem?_map, List.getElem?_range h]
  rfl

theorem zipWith_map_same {α β γ δ : Type _} (f : β → γ → δ) (g : α → β) (h : α → γ)
    (l : List α) : List.zipWith f (l.map g) (l.map h) = l.map (fun x => f (g x) (h x)) := by
  induction l with
  | nil => rfl
  | cons a t ih => simp only [List.map_cons, List.zipWith_cons_cons, ih]

theorem mapM_ok_of_forall {α β : Type _} (f : α → Except String β) (g : α → β) :
    ∀ (l : List α), (∀ x ∈ l, f x = .ok (g x)) → l.mapM f = .ok (l.map g)
  | [], _ => rfl
  | a :: t, h => by
    rw [List.mapM_cons, h a (List.mem_cons_self a t),
      mapM_ok_of_forall f g t (fun x hx => h x (List.mem_cons_of_mem a hx))]
    rfl

/-! ## Normal form of the two per-window functions -/

theorem build_matrix_eq (C : ℕ) (g : ℕ → ℕ → ℚ) (nrm : ℕ → QSqrt) :
    List.zipWith (List.zipWith fdiv)
      ((List.range C).map (fun i => (List.range C).map (fun j => g i j)))
      (List.zipWith (List.zipWith QSqrt.mul)
        ((List.range C).map (fun _ => (List.range C).map nrm))
        ((List.range C).map (fun i => (List.range C).map (fun j =>
          (((List.range C).map (fun _ : ℕ => (List.range C).map nrm)).getD j []).getD i (sqrtQ 0)))))
      = (List.range C).map (fun i => (List.range C).map (fun j =>
          fdiv (g i j) (QSqrt.mul (nrm j) (nrm i)))) := by
  have h1 : (List.range C).map (fun i => (List.range C).map (fun j =>
      (((List.range C).map (fun _ : ℕ => (List.range C).map nrm)).getD j []).getD i (sqrtQ 0)))
      = (List.range C).map (fun i => (List.range C).map (fun _ => nrm i)) := by
    apply List.map_congr_left; intro i hi
    apply List.map_congr_left; intro j hj
    rw [getD_range_map _ _ (List.mem_range.mp hj), getD_range_map _ _ (List.mem_range.mp hi)]
  rw [h1]
  simp only [zipWith_map_same]

theorem calc_cosine_ok (m C : ℕ) (data : List ℚ) :
    calc_cosine_similarity_on_2darray ⟨[m, C], data⟩ =
      Except.ok (cosMatrix ⟨[m, C], data⟩) := by
  show Except.ok (List.zipWith (List.zipWith fdiv) _ _) = _
  simp only [List.getD_cons_zero]
  rw [build_matrix_eq]
  rfl

theorem calc_norm_eq (v : List ℚ) :
    calc_norm v = sqrtQ ((v.map (fun x => x ^ 2)).sum) := by
  unfold calc_norm
  congr 1
  apply congrArg
  apply List.map_congr_left
  intro x _
  exact (pow_two x).symm

theorem QSqrt.ofRat_one_mul (x : QSqrt) : QSqrt.mul (QSqrt.ofRat 1) x = x := by
  cases x with
  | mk q r => simp [QSqrt.mul, QSqrt.ofRat]

theorem numba_norm_row (m C : ℕ) (data : List ℚ) :
    List.zipWith (fun o x => QSqrt.mul (QSqrt.ofRat o) x) (List.replicate C (1 : ℚ))
      ((List.range C).map (fun i => calc_norm (NDArray.col ⟨[m, C], data⟩ i)))
      = (List.range C).map (fun j => sqrtQ (colNormSq ⟨[m, C], data⟩ j)) := by
  have hrep : (List.replicate C (1 : ℚ)) = (List.range C).map (fun _ => (1 : ℚ)) := by
    rw [List.map_const']
    simp
  rw [hrep, zipWith_map_same]
  apply List.map_congr_left
  intro i _
  rw [QSqrt.ofRat_one_mul, calc_norm_eq]
  rfl

theorem calc_numba_ok (m C : ℕ) (data : List ℚ) :
    calc_cosine_similarity_on_2darray_numba ⟨[m, C], data⟩ =
      Except.ok (cosMatrix ⟨[m, C], data⟩) := by
  show Except.ok (List.zipWith (List.zipWith fdiv) _ _) = _
  simp only [numba_norm_row]
  rw [build_matrix_eq]
  rfl

theorem cosMatrix_entry (m C : ℕ) (data : List ℚ) {i j : ℕ} (hi : i < C) (hj : j < C) :
    ((cosMatrix ⟨[m, C], data⟩).getD i []).getD j FVal.nan = cosEntry ⟨[m, C], data⟩ i j := by
  show (((List.range C).map (fun i => (List.range C).map
      (fun j => cosEntry ⟨[m, C], data⟩ i j))).getD i []).getD j FVal.nan = _
  rw [getD_range_map _ _ hi, getD_range_map _ _ hj]

theorem cosEntry_eq_fin (a : NDArray) (i j : ℕ)
    (hi : colNormSq a i ≠ 0) (hj : colNormSq a j ≠ 0) :
    cosEntry a i j = FVal.fin
      ⟨colDotQ a i j / (colNormSq a j * colNormSq a i), colNormSq a j * colNormSq a i⟩ := by
  unfold cosEntry fdiv QSqrt.mul sqrtQ
  rw [if_neg]
  · simp
  · push_neg
    exact ⟨by norm_num, mul_ne_zero hj hi⟩

/-! ## Facts about column norms and dot products -/

theorem colNormSq_nonneg (a : NDArray) (j : ℕ) : 0 ≤ colNormSq a j := by
  apply List.sum_nonneg
  intro x hx
  obtain ⟨y, _, rfl⟩ := List.mem_map.mp hx
  exact sq_nonneg y

theorem sq_list_all_zero {v : List ℚ} (h : (v.map (fun x => x ^ 2)).sum = 0) :
    ∀ x ∈ v, x = 0 := by
  induction v with
  | nil => simp
  | cons a t ih =>
    simp only [List.map_cons, List.sum_cons] at h
    have h2 : 0 ≤ (t.map (fun x => x ^ 2)).sum := by
      apply List.sum_nonneg
      intro x hx
      obtain ⟨y, _, rfl⟩ := List.mem_map.mp hx
      exact sq_nonneg y
    have ha := (add_eq_zero_iff_of_nonneg (sq_nonneg a) h2).mp h
    intro x hx
    rcases List.mem_cons.mp hx with rfl | hx'
    · exact sq_eq_zero_iff.mp ha.1
    · exact ih ha.2 x hx'

theorem colDotQ_eq_zero_left {a : NDArray} {k j : ℕ} (h : colNormSq a k = 0) :
    colDotQ a k j = 0 := by
  have hz : ∀ x ∈ a.col k, x = 0 := sq_list_all_zero h
  unfold colDotQ
  apply List.sum_eq_zero
  intro x hx
  obtain ⟨r, hr, rfl⟩ := List.mem_map.mp hx
  have h0 : a.get2 r k = 0 := hz _ (List.mem_map_of_mem _ hr)
  rw [h0, zero_mul]

theorem colDotQ_eq_zero_right {a : NDArray} {j k : ℕ} (h : colNormSq a k = 0) :
    colDotQ a j k = 0 := by
  have hz : ∀ x ∈ a.col k, x = 0 := sq_list_all_zero h
  unfold colDotQ
  apply List.sum_eq_zero
  intro x hx
  obtain ⟨r, hr, rfl⟩ := List.mem_map.mp hx
  have h0 : a.get2 r k = 0 := hz _ (List.mem_map_of_mem _ hr)
  rw [h0, mul_zero]

theorem cosEntry_nan_row {a : NDArray} {k j : ℕ} (h : colNormSq a k = 0) :
    cosEntry a k j = FVal.nan := by
  unfold cosEntry fdiv
  have hcond : (QSqrt.mul (sqrtQ (colNormSq a j)) (sqrtQ (colNormSq a k))).q = 0 ∨
      (QSqrt.mul (sqrtQ (colNormSq a j)) (sqrtQ (colNormSq a k))).r = 0 := by
    refine Or.inr ?_
    unfold QSqrt.mul sqrtQ
    simp [h]
  rw [if_pos hcond, if_pos (colDotQ_eq_zero_left h)]

theorem cosEntry_nan_col {a : NDArray} {j k : ℕ} (h : colNormSq a k = 0) :
    cosEntry a j k = FVal.nan := by
  unfold cosEntry fdiv
  have hcond : (QSqrt.mul (sqrtQ (colNormSq a k)) (sqrtQ (colNormSq a j))).q = 0 ∨
      (QSqrt.mul (sqrtQ (colNormSq a k)) (sqrtQ (colNormSq a j))).r = 0 := by
    refine Or.inr ?_
    unfold QSqrt.mul sqrtQ
    simp [h]
  rw [if_pos hcond, if_pos (colDotQ_eq_zero_right h)]

theorem colDotQ_comm (a : NDArray) (i j : ℕ) : colDotQ a i j = colDotQ a j i := by
  unfold colDotQ
  apply congrArg
  apply List.map_congr_left
  intro k _
  ring

theorem cosEntry_symm (a : NDArray) (i j : ℕ) : cosEntry a i j = cosEntry a j i := by
  unfold cosEntry
  rw [colDotQ_comm]
  congr 1
  unfold QSqrt.mul sqrtQ
  rw [mul_comm (colNormSq a j) (colNormSq a i)]

theorem colDotQ_self (a : NDArray) (i : ℕ) : colDotQ a i i = colNormSq a i := by
  unfold colDotQ colNormSq NDArray.col
  rw [List.map_map]
  apply congrArg
  apply List.map_congr_left
  intro k _
  simp [pow_two]

/-! ## Denotation lemmas -/

theorem toReal_div_norms (g Si Sj : ℚ) (hi0 : 0 ≤ Si) (hj0 : 0 ≤ Sj)
    (hi : Si ≠ 0) (hj : Sj ≠ 0) :
    (QSqrt.mk (g / (Sj * Si)) (Sj * Si)).toReal =
      (g : ℝ) / (Real.sqrt ((Si : ℚ) : ℝ) * Real.sqrt ((Sj : ℚ) : ℝ)) := by
  unfold QSqrt.toReal
  have hi' : (0 : ℝ) < (Si : ℝ) := by exact_mod_cast lt_of_le_of_ne hi0 (Ne.symm hi)
  have hj' : (0 : ℝ) < (Sj : ℝ) := by exact_mod_cast lt_of_le_of_ne hj0 (Ne.symm hj)
  have hsi : Real.sqrt ((Si : ℚ) : ℝ) ≠ 0 := by rw [Real.sqrt_ne_zero']; exact hi'
  have hsj : Real.sqrt ((Sj : ℚ) : ℝ) ≠ 0 := by rw [Real.sqrt_ne_zero']; exact hj'
  push_cast
  rw [Real.sqrt_mul (le_of_lt hj')]
  rw [div_mul_eq_mul_div, div_eq_div_iff (by positivity) (by positivity)]
  have e1 : Real.sqrt ((Si : ℝ)) * Real.sqrt ((Si : ℝ)) = ((Si : ℝ)) :=
    Real.mul_self_sqrt (le_of_lt hi')
  have e2 : Real.sqrt ((Sj : ℝ)) * Real.sqrt ((Sj : ℝ)) = ((Sj : ℝ)) :=
    Real.mul_self_sqrt (le_of_lt hj')
  linear_combination ((g : ℝ) * Real.sqrt ((Sj : ℝ)) * Real.sqrt ((Sj : ℝ))) * e1 +
    ((g : ℝ) * (Si : ℝ)) * e2

theorem toReal_diag_one (S : ℚ) (h0 : 0 ≤ S) (h : S ≠ 0) :
    (QSqrt.mk (S / (S * S)) (S * S)).toReal = 1 := by
  rw [toReal_div_norms S S S h0 h0 h h]
  rw [Real.mul_self_sqrt (by exact_mod_cast h0)]
  rw [div_self]
  exact_mod_cast h

/-! ## Structure of the rolling pipeline on well-behaved shapes -/

theorem squeezed_items (T C : ℕ) (data : List ℚ) (w : ℤ)
    (hw2 : 2 ≤ w) (hwT : w.toNat < T) (hC : 2 ≤ C) :
    ∃ v : NDArray, sliding_window_view ⟨[T, C], data⟩ w C = Except.ok v ∧
      ∃ ws : List NDArray, (np_squeeze v).items = Except.ok ws ∧
        ws.length = T - w.toNat + 1 ∧ ∀ x ∈ ws, ∃ d, x = ⟨[w.toNat, C], d⟩ := by
  unfold sliding_window_view
  simp only [List.getD_cons_zero, List.getD_cons_succ]
  rw [if_neg (show ¬ w < 0 by omega), if_neg (show ¬ T < w.toNat by omega),
    if_neg (show ¬ C < C by omega)]
  refine ⟨_, rfl, ?_⟩
  have h1 : ((T - w.toNat + 1 : ℕ) != 1) = true := by simp only [bne_iff_ne, ne_eq]; omega
  have h2 : ((C - C + 1 : ℕ) != 1) = false := by simp [Nat.sub_self]
  have h3 : ((w.toNat : ℕ) != 1) = true := by simp only [bne_iff_ne, ne_eq]; omega
  have h4 : ((C : ℕ) != 1) = true := by simp only [bne_iff_ne, ne_eq]; omega
  unfold np_squeeze NDArray.items
  simp only [List.filter, h1, h2, h3, h4]
  refine ⟨_, rfl, ?_, ?_⟩
  · simp
  · intro x hx
    obtain ⟨i, _, rfl⟩ := List.mem_map.mp hx
    exact ⟨_, rfl⟩

theorem rolling_numba_struct (T C : ℕ) (data : List ℚ) (w : ℤ)
    (hw2 : 2 ≤ w) (hwT : w.toNat < T) (hC : 2 ≤ C) :
    ∃ ms, calc_rolling_cosine_similarity_numba ⟨[T, C], data⟩ w C = Except.ok ms ∧
      ms.length = T - w.toNat + 1 := by
  obtain ⟨v, hv, ws, hws, hlen, hform⟩ := squeezed_items T C data w hw2 hwT hC
  have hok : ∀ x ∈ ws, calc_cosine_similarity_on_2darray_numba x = .ok (cosMatrix x) := by
    intro x hx
    obtain ⟨d, rfl⟩ := hform x hx
    exact calc_numba_ok _ _ _
  unfold calc_rolling_cosine_similarity_numba rolling_cosine_similarity_numba
  simp only [hv, hws]
  rw [mapM_ok_of_forall _ _ ws hok]
  exact ⟨_, rfl, by rw [List.length_map]; exact hlen⟩

theorem rolling_v2_struct (T C : ℕ) (data : List ℚ) (w : ℤ) (a : NDArray)
    (hw2 : 2 ≤ w) (hwT : w.toNat < T) (hC : 2 ≤ C) :
    ∃ ms, calc_rolling_cosine_similarity_v2 ⟨[T, C], data⟩ a w C = Except.ok ms ∧
      ms.length = T - w.toNat + 1 := by
  obtain ⟨v, hv, ws, hws, hlen, hform⟩ := squeezed_items T C data w hw2 hwT hC
  have hok : ∀ x ∈ ws, calc_cosine_similarity_on_2darray x = .ok (cosMatrix x) := by
    intro x hx
    obtain ⟨d, rfl⟩ := hform x hx
    exact calc_cosine_ok _ _ _
  unfold calc_rolling_cosine_similarity_v2
  simp only [hv, hws]
  rw [mapM_ok_of_forall _ _ ws hok]
  exact ⟨_, rfl, by rw [List.length_map]; exact hlen⟩

theorem rolling_v1_struct (skl : NDArray → SimMatrix) (T C : ℕ) (data : List ℚ)
    (w : ℤ) (a : NDArray) (hw2 : 2 ≤ w) (hwT : w.toNat < T) (hC : 2 ≤ C) :
    ∃ ms, calc_rolling_cosine_similarity_v1 skl ⟨[T, C], data⟩ a w C = Except.ok ms ∧
      ms.length = T - w.toNat + 1 := by
  obtain ⟨v, hv, ws, hws, hlen, _⟩ := squeezed_items T C data w hw2 hwT hC
  unfold calc_rolling_cosine_similarity_v1
  simp only [hv, hws]
  exact ⟨_, rfl, by rw [List.length_map]; exact hlen⟩

/-! ## Claims -/

/-- Claim C1: for every window (2-d array of shape `(window_size, C)`, `C ≥ 1`)
and every pair of channel indices `i`, `j` whose columns have nonzero Euclidean
norm within the window, `calc_cosine_similarity_on_2darray` returns a `C × C`
matrix `M` with `M[i][j]` equal to the dot product of column `i` and column `j`
divided by the product of their Euclidean norms. -/
theorem claim_C1_single_window_formula (m C : ℕ) (data : List ℚ) (i j : ℕ)
    (hC : 1 ≤ C) (hlen : data.length = m * C) (hi : i < C) (hj : j < C)
    (hni : colNormSq ⟨[m, C], data⟩ i ≠ 0) (hnj : colNormSq ⟨[m, C], data⟩ j ≠ 0) :
    ∃ M : SimMatrix, calc_cosine_similarity_on_2darray ⟨[m, C], data⟩ = Except.ok M ∧
      M.length = C ∧ (∀ row ∈ M, row.length = C) ∧
      ∃ v : QSqrt, (M.getD i []).getD j FVal.nan = FVal.fin v ∧
        v.toReal = ((colDotQ ⟨[m, C], data⟩ i j : ℚ) : ℝ) /
          (colNorm ⟨[m, C], data⟩ i * colNorm ⟨[m, C], data⟩ j) := by
  refine ⟨_, calc_cosine_ok m C data, ?_, ?_, ?_⟩
  · simp [cosMatrix]
  · intro row hrow
    unfold cosMatrix at hrow
    obtain ⟨x, _, rfl⟩ := List.mem_map.mp hrow
    simp
  · rw [cosMatrix_entry m C data hi hj, cosEntry_eq_fin _ _ _ hni hnj]
    refine ⟨_, rfl, ?_⟩
    unfold colNorm
    exact toReal_div_norms _ _ _ (colNormSq_nonneg _ _) (colNormSq_nonneg _ _) hni hnj

/-- Witness for C1 at the window `[[1, 0], [0, 1]]`, channels 0 and 1. -/
theorem claim_C1_witness :
    colNormSq ⟨[2, 2], [1, 0, 0, 1]⟩ 0 ≠ 0 ∧ colNormSq ⟨[2, 2], [1, 0, 0, 1]⟩ 1 ≠ 0 ∧
    (∃ M : SimMatrix, calc_cosine_similarity_on_2darray ⟨[2, 2], [1, 0, 0, 1]⟩ = Except.ok M ∧
      M.length = 2 ∧ (∀ row ∈ M, row.length = 2) ∧
      ∃ v : QSqrt, (M.getD 0 []).getD 1 FVal.nan = FVal.fin v ∧
        v.toReal = ((colDotQ ⟨[2, 2], [1, 0, 0, 1]⟩ 0 1 : ℚ) : ℝ) /
          (colNorm ⟨[2, 2], [1, 0, 0, 1]⟩ 0 * colNorm ⟨[2, 2], [1, 0, 0, 1]⟩ 1)) := by
  have h0 : colNormSq ⟨[2, 2], [1, 0, 0, 1]⟩ 0 ≠ 0 := by
    norm_num [colNormSq, NDArray.col, NDArray.get2, List.range_succ]
  have h1 : colNormSq ⟨[2, 2], [1, 0, 0, 1]⟩ 1 ≠ 0 := by
    norm_num [colNormSq, NDArray.col, NDArray.get2, List.range_succ]
  exact ⟨h0, h1, claim_C1_single_window_formula 2 2 [1, 0, 0, 1] 0 1 (by norm_num)
    (by norm_num) (by norm_num) (by norm_num) h0 h1⟩

/-- Claim C2: on any 2-d window whose columns all have nonzero norm, the NumPy
formulation and the Numba-oriented variant return similarity matrices that are
equal within tolerance `1e-8` in every entry. -/
theorem claim_C2_cross_method_agreement (m C : ℕ) (data : List ℚ)
    (hwell : ∀ k, k < C → colNormSq ⟨[m, C], data⟩ k ≠ 0) :
    ∃ M1 M2 : SimMatrix,
      calc_cosine_similarity_on_2darray ⟨[m, C], data⟩ = Except.ok M1 ∧
      calc_cosine_similarity_on_2darray_numba ⟨[m, C], data⟩ = Except.ok M2 ∧
      ∀ i j, i < C → j < C →
        ∃ x y : QSqrt, (M1.getD i []).getD j FVal.nan = FVal.fin x ∧
          (M2.getD i []).getD j FVal.nan = FVal.fin y ∧
          |x.toReal - y.toReal| ≤ 1 / 10 ^ 8 := by
  refine ⟨_, _, calc_cosine_ok m C data, calc_numba_ok m C data, ?_⟩
  intro i j hi hj
  rw [cosMatrix_entry m C data hi hj, cosEntry_eq_fin _ _ _ (hwell i hi) (hwell j hj)]
  refine ⟨_, _, rfl, rfl, ?_⟩
  rw [sub_self, abs_zero]
  norm_num

/-- Witness for C2 at the window `[[1, 0], [0, 1]]`. -/
theorem claim_C2_witness :
    (∀ k, k < 2 → colNormSq ⟨[2, 2], [1, 0, 0, 1]⟩ k ≠ 0) ∧
    (∃ M1 M2 : SimMatrix,
      calc_cosine_similarity_on_2darray ⟨[2, 2], [1, 0, 0, 1]⟩ = Except.ok M1 ∧
      calc_cosine_similarity_on_2darray_numba ⟨[2, 2], [1, 0, 0, 1]⟩ = Except.ok M2 ∧
      ∀ i j, i < 2 → j < 2 →
        ∃ x y : QSqrt, (M1.getD i []).getD j FVal.nan = FVal.fin x ∧
          (M2.getD i []).getD j FVal.nan = FVal.fin y ∧
          |x.toReal - y.toReal| ≤ 1 / 10 ^ 8) := by
  have hwell : ∀ k, k < 2 → colNormSq ⟨[2, 2], [1, 0, 0, 1]⟩ k ≠ 0 := by
    intro k hk
    interval_cases k <;>
      norm_num [colNormSq, NDArray.col, NDArray.get2, List.range_succ]
  exact ⟨hwell, claim_C2_cross_method_agreement 2 2 [1, 0, 0, 1] hwell⟩

/-- Counterexample to C3 as stated: at `T = 1`, `C = 2`, `window_size = 2`
(`window_size ≥ 1`), the claim predicts a sequence of length
`max(0, T - window_size + 1) = 0`, but the code raises a ValueError from
`sliding_window_view` instead of returning a sequence. -/
theorem claim_C3_count_counterexample :
    calc_rolling_cosine_similarity_numba ⟨[1, 2], [3, 4]⟩ 2 2 =
      Except.error "window shape cannot be larger than input array shape" := rfl

/-- Claim C3 as amended: for `2 ≤ window_size < T` and `C ≥ 2` (with
`num_features = C`), the rolling operations (numba, v2, v1) return a sequence
of length `T - window_size + 1 = max(0, T - window_size + 1)`.  The excluded
cases fail: `window_size > T` raises in `sliding_window_view`, and
`window_size = T`, `window_size = 1` or `C = 1` make `np.squeeze` collapse an
axis so the per-window function receives non-2-d input and raises. -/
theorem claim_C3_count_amended (T C : ℕ) (data : List ℚ) (w : ℤ)
    (hw2 : 2 ≤ w) (hwT : w.toNat < T) (hC : 2 ≤ C) :
    (∃ ms, calc_rolling_cosine_similarity_numba ⟨[T, C], data⟩ w C = Except.ok ms ∧
      ms.length = T - w.toNat + 1) ∧
    (∀ a : NDArray, ∃ ms,
      calc_rolling_cosine_similarity_v2 ⟨[T, C], data⟩ a w C = Except.ok ms ∧
      ms.length = T - w.toNat + 1) ∧
    (∀ (skl : NDArray → SimMatrix) (a : NDArray), ∃ ms,
      calc_rolling_cosine_similarity_v1 skl ⟨[T, C], data⟩ a w C = Except.ok ms ∧
      ms.length = T - w.toNat + 1) :=
  ⟨rolling_numba_struct T C data w hw2 hwT hC,
    fun a => rolling_v2_struct T C data w a hw2 hwT hC,
    fun skl a => rolling_v1_struct skl T C data w a hw2 hwT hC⟩

/-- Witness for the amended C3 at `T = 3`, `C = 2`, `window_size = 2`. -/
theorem claim_C3_witness :
    (2 : ℤ) ≤ 2 ∧ (2 : ℤ).toNat < 3 ∧ 2 ≤ 2 ∧
    ((∃ ms, calc_rolling_cosine_similarity_numba ⟨[3, 2], [1, 0, 0, 1, 1, 1]⟩ 2 2 =
        Except.ok ms ∧ ms.length = 3 - (2 : ℤ).toNat + 1) ∧
     (∀ a : NDArray, ∃ ms,
        calc_rolling_cosine_similarity_v2 ⟨[3, 2], [1, 0, 0, 1, 1, 1]⟩ a 2 2 =
        Except.ok ms ∧ ms.length = 3 - (2 : ℤ).toNat + 1) ∧
     (∀ (skl : NDArray → SimMatrix) (a : NDArray), ∃ ms,
        calc_rolling_cosine_similarity_v1 skl ⟨[3, 2], [1, 0, 0, 1, 1, 1]⟩ a 2 2 =
        Except.ok ms ∧ ms.length = 3 - (2 : ℤ).toNat + 1)) :=
  ⟨by decide, by decide, by decide,
    claim_C3_count_amended 3 2 [1, 0, 0, 1, 1, 1] 2 (by decide) (by decide) (by decide)⟩

/-- Counterexample to C4 as stated: at `T = 2` and `window_size = 3 > T` the
rolling operation does not return an empty sequence; it raises the
`sliding_window_view` ValueError. -/
theorem claim_C4_raises_counterexample :
    calc_rolling_cosine_similarity_numba ⟨[2, 2], [1, 0, 0, 1]⟩ 3 2 =
      Except.error "window shape cannot be larger than input array shape" := rfl

/-- Claim C4 as amended: for every input matrix and every
`window_size > T` (nonnegative), the rolling operation raises the ValueError
of `sliding_window_view` ("window shape cannot be larger than input array
shape") instead of returning an empty sequence. -/
theorem claim_C4_amended_raises (T C : ℕ) (data : List ℚ) (w : ℤ) (nf : ℕ)
    (h0 : 0 ≤ w) (hT : T < w.toNat) :
    calc_rolling_cosine_similarity_numba ⟨[T, C], data⟩ w nf =
      Except.error "window shape cannot be larger than input array shape" := by
  unfold calc_rolling_cosine_similarity_numba sliding_window_view
  simp only [List.getD_cons_zero, List.getD_cons_succ]
  rw [if_neg (show ¬ w < 0 by omega), if_pos hT]

/-- Witness for the amended C4 at `T = 2`, `window_size = 3`. -/
theorem claim_C4_witness :
    (0 : ℤ) ≤ 3 ∧ 2 < (3 : ℤ).toNat ∧
    calc_rolling_cosine_similarity_numba ⟨[2, 3], [1, 0, 0, 0, 1, 0]⟩ 3 3 =
      Except.error "window shape cannot be larger than input array shape" :=
  ⟨by decide, by decide,
    claim_C4_amended_raises 2 3 [1, 0, 0, 0, 1, 0] 3 3 (by decide) (by decide)⟩

/-- Claim C5, evaluation at the failing input: with `T = 2`, `C = 2`,
`window_size = T = 2`, the spec expects a length-1 result holding the cosine
similarity matrix of the whole series, but `np.squeeze` collapses the
single-window axis (shape `(1, 1, 2, 2)` squeezes to `(2, 2)`), so the
per-window function is applied to the 1-d rows of the single window and raises
on the `arr.shape[1]` lookup. -/
theorem claim_C5_window_equals_T_failure :
    calc_rolling_cosine_similarity_numba ⟨[2, 2], [1, 0, 0, 1]⟩ 2 2 =
      Except.error "IndexError: tuple index out of range" := rfl

/-- Claim C6: if channel `k` has zero Euclidean norm within a window, the
single-window computation does not raise: it returns a matrix whose row `k`
and column `k` are entirely not-a-number, entries between channels of nonzero
norm stay finite, and the rolling orchestration still produces one matrix per
valid window start. -/
theorem claim_C6_degenerate_channel :
    (∀ (m C : ℕ) (data : List ℚ) (k : ℕ), k < C → colNormSq ⟨[m, C], data⟩ k = 0 →
      ∃ M : SimMatrix, calc_cosine_similarity_on_2darray ⟨[m, C], data⟩ = Except.ok M ∧
        (∀ j, j < C → (M.getD k []).getD j FVal.nan = FVal.nan ∧
          (M.getD j []).getD k FVal.nan = FVal.nan) ∧
        (∀ i j, i < C → j < C → colNormSq ⟨[m, C], data⟩ i ≠ 0 →
          colNormSq ⟨[m, C], data⟩ j ≠ 0 →
          ∃ v, (M.getD i []).getD j FVal.nan = FVal.fin v)) ∧
    (∀ (T C : ℕ) (data : List ℚ) (w : ℤ), 2 ≤ w → w.toNat < T → 2 ≤ C →
      ∃ ms, calc_rolling_cosine_similarity_numba ⟨[T, C], data⟩ w C = Except.ok ms ∧
        ms.length = T - w.toNat + 1) := by
  constructor
  · intro m C data k hk hzero
    refine ⟨_, calc_cosine_ok m C data, ?_, ?_⟩
    · intro j hj
      rw [cosMatrix_entry m C data hk hj, cosMatrix_entry m C data hj hk]
      exact ⟨cosEntry_nan_row hzero, cosEntry_nan_col hzero⟩
    · intro i j hi hj hni hnj
      rw [cosMatrix_entry m C data hi hj, cosEntry_eq_fin _ _ _ hni hnj]
      exact ⟨_, rfl⟩
  · intro T C data w hw2 hwT hC
    exact rolling_numba_struct T C data w hw2 hwT hC

/-- Witness for C6: the window `[[1, 0], [1, 0]]` has a zero channel 1, and a
rolling call at `T = 3`, `window_size = 2` yields 2 matrices. -/
theorem claim_C6_witness :
    colNormSq ⟨[2, 2], [1, 0, 1, 0]⟩ 1 = 0 ∧
    (∃ M : SimMatrix, calc_cosine_similarity_on_2darray ⟨[2, 2], [1, 0, 1, 0]⟩ = Except.ok M ∧
      (∀ j, j < 2 → (M.getD 1 []).getD j FVal.nan = FVal.nan ∧
        (M.getD j []).getD 1 FVal.nan = FVal.nan) ∧
      (∀ i j, i < 2 → j < 2 → colNormSq ⟨[2, 2], [1, 0, 1, 0]⟩ i ≠ 0 →
        colNormSq ⟨[2, 2], [1, 0, 1, 0]⟩ j ≠ 0 →
        ∃ v, (M.getD i []).getD j FVal.nan = FVal.fin v)) ∧
    (∃ ms, calc_rolling_cosine_similarity_numba ⟨[3, 2], [1, 0, 1, 0, 0, 0]⟩ 2 2 =
      Except.ok ms ∧ ms.length = 3 - (2 : ℤ).toNat + 1) := by
  have hz : colNormSq ⟨[2, 2], [1, 0, 1, 0]⟩ 1 = 0 := by
    norm_num [colNormSq, NDArray.col, NDArray.get2, List.range_succ]
  exact ⟨hz, claim_C6_degenerate_channel.1 2 2 [1, 0, 1, 0] 1 (by norm_num) hz,
    claim_C6_degenerate_channel.2 3 2 [1, 0, 1, 0, 0, 0] 2 (by decide) (by decide) (by decide)⟩

/-- Claim C7: every similarity matrix produced for any window is symmetric:
`M[i][j] = M[j][i]` (exactly, hence within any floating tolerance), for both
per-window implementations. -/
theorem claim_C7_symmetry (m C : ℕ) (data : List ℚ) (i j : ℕ)
    (hi : i < C) (hj : j < C) :
    (∃ M : SimMatrix, calc_cosine_similarity_on_2darray ⟨[m, C], data⟩ = Except.ok M ∧
      (M.getD i []).getD j FVal.nan = (M.getD j []).getD i FVal.nan) ∧
    (∃ M : SimMatrix, calc_cosine_similarity_on_2darray_numba ⟨[m, C], data⟩ = Except.ok M ∧
      (M.getD i []).getD j FVal.nan = (M.getD j []).getD i FVal.nan) := by
  constructor
  · refine ⟨_, calc_cosine_ok m C data, ?_⟩
    rw [cosMatrix_entry m C data hi hj, cosMatrix_entry m C data hj hi]
    exact cosEntry_symm _ i j
  · refine ⟨_, calc_numba_ok m C data, ?_⟩
    rw [cosMatrix_entry m C data hi hj, cosMatrix_entry m C data hj hi]
    exact cosEntry_symm _ i j

/-- Witness for C7 at the window `[[1, 2], [3, 4]]`, channels 0 and 1. -/
theorem claim_C7_witness :
    (0 < 2 ∧ 1 < 2) ∧
    ((∃ M : SimMatrix, calc_cosine_similarity_on_2darray ⟨[2, 2], [1, 2, 3, 4]⟩ = Except.ok M ∧
      (M.getD 0 []).getD 1 FVal.nan = (M.getD 1 []).getD 0 FVal.nan) ∧
     (∃ M : SimMatrix, calc_cosine_similarity_on_2darray_numba ⟨[2, 2], [1, 2, 3, 4]⟩ =
        Except.ok M ∧
      (M.getD 0 []).getD 1 FVal.nan = (M.getD 1 []).getD 0 FVal.nan)) :=
  ⟨⟨by decide, by decide⟩,
    claim_C7_symmetry 2 2 [1, 2, 3, 4] 0 1 (by decide) (by decide)⟩

/-- Claim C8: for every window and every channel `i` of nonzero Euclidean norm,
the diagonal entry `M[i][i]` equals `1.0` (exactly, in the real-number
idealization). -/
theorem claim_C8_self_similarity (m C : ℕ) (data : List ℚ) (i : ℕ) (hi : i < C)
    (hn : colNormSq ⟨[m, C], data⟩ i ≠ 0) :
    ∃ M : SimMatrix, ∃ v : QSqrt,
      calc_cosine_similarity_on_2darray ⟨[m, C], data⟩ = Except.ok M ∧
      (M.getD i []).getD i FVal.nan = FVal.fin v ∧ v.toReal = 1 := by
  refine ⟨cosMatrix ⟨[m, C], data⟩,
    ⟨colNormSq ⟨[m, C], data⟩ i /
        (colNormSq ⟨[m, C], data⟩ i * colNormSq ⟨[m, C], data⟩ i),
      colNormSq ⟨[m, C], data⟩ i * colNormSq ⟨[m, C], data⟩ i⟩,
    calc_cosine_ok m C data, ?_, ?_⟩
  · rw [cosMatrix_entry m C data hi hi, cosEntry_eq_fin _ _ _ hn hn, colDotQ_self]
  · exact toReal_diag_one _ (colNormSq_nonneg _ _) hn

/-- Witness for C8 at the single-column window `[[3], [4]]` (norm 5). -/
theorem claim_C8_witness :
    colNormSq ⟨[2, 1], [3, 4]⟩ 0 ≠ 0 ∧
    (∃ M : SimMatrix, ∃ v : QSqrt,
      calc_cosine_similarity_on_2darray ⟨[2, 1], [3, 4]⟩ = Except.ok M ∧
      (M.getD 0 []).getD 0 FVal.nan = FVal.fin v ∧ v.toReal = 1) := by
  have h : colNormSq ⟨[2, 1], [3, 4]⟩ 0 ≠ 0 := by
    norm_num [colNormSq, NDArray.col, NDArray.get2, List.range_succ]
  exact ⟨h, claim_C8_self_similarity 2 1 [3, 4] 0 (by decide) h⟩

/-- Counterexample to C9 as stated: `window_size = 0 < 1` is not rejected and
no error is raised; the code returns `T + 1 = 2` degenerate all-nan matrices
(each window is an empty `(0, 2)` slice whose norms are all zero). -/
theorem claim_C9_fail_fast_counterexample :
    calc_rolling_cosine_similarity_numba ⟨[1, 2], [5, 7]⟩ 0 2 =
      Except.ok [[[FVal.nan, FVal.nan], [FVal.nan, FVal.nan]],
                 [[FVal.nan, FVal.nan], [FVal.nan, FVal.nan]]] := by
  simp [calc_rolling_cosine_similarity_numba, sliding_window_view, np_squeeze,
    rolling_cosine_similarity_numba, NDArray.items,
    calc_cosine_similarity_on_2darray_numba, calc_norm, sqrtQ, QSqrt.mul,
    QSqrt.ofRat, fdiv, NDArray.col, NDArray.get2, List.range_succ, List.filter,
    List.mapM, List.mapM.loop, Except.bind, bind, pure, Except.pure]

/-- Claim C9 as amended: only `window_size < 0` fails fast (ValueError raised
by `sliding_window_view` before any window is computed); `window_size = 0` is
accepted and produces `T + 1` degenerate matrices. -/
theorem claim_C9_amended_negative_raises (arr : NDArray) (nf : ℕ) (w : ℤ)
    (hw : w < 0) :
    calc_rolling_cosine_similarity_numba arr w nf =
      Except.error "window_shape cannot contain negative values" := by
  unfold calc_rolling_cosine_similarity_numba sliding_window_view
  rw [if_pos hw]

/-- Witness for the amended C9 at `window_size = -1`. -/
theorem claim_C9_witness :
    (-1 : ℤ) < 0 ∧
    calc_rolling_cosine_similarity_numba ⟨[1, 1], [0]⟩ (-1) 1 =
      Except.error "window_shape cannot contain negative values" :=
  ⟨by decide, claim_C9_amended_negative_raises ⟨[1, 1], [0]⟩ 1 (-1) (by decide)⟩

/-- Claim C10: `calc_rolling_cosine_similarity_v1` and
`calc_rolling_cosine_similarity_v2` never read their `array` parameter (they
window the module-level global `array_2D`), so with the same global state,
window size and feature count, any two `array` arguments give identical
results. -/
theorem claim_C10_array_argument_ignored (skl : NDArray → SimMatrix)
    (array_2D a1 a2 : NDArray) (w : ℤ) (nf : ℕ) :
    calc_rolling_cosine_similarity_v1 skl array_2D a1 w nf =
      calc_rolling_cosine_similarity_v1 skl array_2D a2 w nf ∧
    calc_rolling_cosine_similarity_v2 array_2D a1 w nf =
      calc_rolling_cosine_similarity_v2 array_2D a2 w nf :=
  ⟨rfl, rfl⟩
